import Mathlib

/-!
Verification of the Elliptec protocol engine (MilnerLab/Devices).

Shallow embedding of the protocol code in `src/elliptec/elliptec.py`,
`src/elliptec/elliptec_trace.py` and `src/elliptec/base/helpers.py`:
reply lines and outbound frames are modelled as `List Char`, status codes
as the `Nat` values of the Python `IntEnum`, timestamps (only order and a
fixed 1 ms tolerance matter) as `ℚ`, and fallible parsers as `Except`.
-/

deriving instance DecidableEq for Except

namespace Elliptec

/-! ## StatusCode enumerations

`StatusCode` in `base/enums.py` / `elliptec.py` has members 0..13.
`elliptec_trace.py` additionally defines `UNKNOWN = 255`.
We model an IntEnum as its set of member values plus named constants. -/

def statusOK : Nat := 0
def statusMechanicalTimeout : Nat := 2
def statusCommandErrorOrNotSupported : Nat := 3
def statusValueOutOfRange : Nat := 4
def statusBusy : Nat := 9

/-- Member values of `StatusCode` in `base/enums.py` and `elliptec.py`. -/
def statusMembers : List Nat := List.range 14

/-- Member values of `StatusCode` in `elliptec_trace.py` (adds UNKNOWN = 255). -/
def traceStatusMembers : List Nat := List.range 14 ++ [255]

/-- Value of `StatusCode.UNKNOWN` in `elliptec_trace.py`. -/
def traceStatusUnknown : Nat := 255

/-! ## Hex digits

Python's `int(s, 16)` on the two- and eight-digit payload slices, and the
`f"{n:0kX}"` formatting used by the encoders. -/

/-- Value of one hex digit, as accepted by Python `int(_, 16)` per character:
ASCII 48-57 are the decimal digits, 65-70 the uppercase and 97-102 the
lowercase letters A-F / a-f. -/
def hexDigitVal (c : Char) : Option Nat :=
  let n := c.toNat
  if 48 ≤ n ∧ n ≤ 57 then some (n - 48)
  else if 65 ≤ n ∧ n ≤ 70 then some (n - 55)
  else if 97 ≤ n ∧ n ≤ 102 then some (n - 87)
  else none

/-- Accumulating hex parse: `hexAccum acc cs` extends the value `acc` by the
digits `cs`, failing on the first non-hex-digit character. -/
def hexAccum (acc : Nat) (cs : List Char) : Option Nat :=
  cs.foldlM (fun a c => (hexDigitVal c).map fun v => a * 16 + v) acc

/-- Python `int(s, 16)` restricted to strings of hex digits: fails on the
empty string and on any non-hex-digit character. -/
def parseHexDigits (cs : List Char) : Option Nat :=
  match cs with
  | [] => none
  | _ :: _ => hexAccum 0 cs

/-- The uppercase hex digit character for `n < 16` (as produced by `%X`). -/
def hexDigitChar (n : Nat) : Char :=
  if n < 10 then Char.ofNat ('0'.toNat + n) else Char.ofNat ('A'.toNat + (n - 10))

/-- Python `f"{n:0wX}"` for `n < 16 ^ w`: exactly `w` uppercase hex digits,
zero-padded, most significant first. -/
def toHexFixed : Nat → Nat → List Char
  | 0, _ => []
  | w + 1, n => toHexFixed w (n / 16) ++ [hexDigitChar (n % 16)]

/-! ## Frame codec (`base/helpers.py`, duplicated in `elliptec.py`) -/

/-- Python `_encode_u8_percent(percent)`: range-check to [0, 100], then format as
two uppercase hex digits (`f"{percent:02X}"`). -/
def encode_u8_percent (percent : Int) : Except String (List Char) :=
  if 0 ≤ percent ∧ percent ≤ 100 then .ok (toHexFixed 2 percent.toNat)
  else .error "percent must be in [0, 100]"

/-- Python `_encode_long32(value)`: `f"{(value & 0xFFFFFFFF):08X}"` — mask to the
two's-complement 32-bit residue, then 8 uppercase hex digits. -/
def encode_long32 (value : Int) : List Char :=
  toHexFixed 8 (value.emod (2 ^ 32)).toNat

/-- Shared body of `_parse_status_reply`: check `len >= 5`, address byte and
`GS` tag, parse `reply[3:5]` as hex, then map through the IntEnum: a member
value is returned as-is, anything else becomes `fallback`. -/
def parse_status_reply_with (members : List Nat) (fallback : Nat)
    (reply : List Char) (address : Char) : Except String Nat :=
  if reply.length < 5 ∨ reply.head? ≠ some address ∨ (reply.drop 1).take 2 ≠ ['G', 'S'] then
    .error "Unexpected status reply"
  else
    match parseHexDigits ((reply.drop 3).take 2) with
    | none => .error "Malformed status code in reply"
    | some code => .ok (if code ∈ members then code else fallback)

/-- The `_parse_status_reply` from `base/helpers.py` (also the behaviour of the
copy in `elliptec.py`: its `code == 9` special case is unreachable because 9
is a member): unknown codes fall back to `COMMAND_ERROR_OR_NOT_SUPPORTED`. -/
def parse_status_reply (reply : List Char) (address : Char) : Except String Nat :=
  parse_status_reply_with statusMembers statusCommandErrorOrNotSupported reply address

/-- The `_parse_status_reply` from `elliptec_trace.py`: unknown codes fall back
to `StatusCode.UNKNOWN` (255). -/
def trace_parse_status_reply (reply : List Char) (address : Char) : Except String Nat :=
  parse_status_reply_with traceStatusMembers traceStatusUnknown reply address

/-- The `_parse_velocity_reply` (identical in `base/helpers.py`, `elliptec.py`
and `elliptec_trace.py`): check `len >= 5`, address and `GV` tag, then return
`int(reply[3:5], 16)` with no range check. -/
def parse_velocity_reply (reply : List Char) (address : Char) : Except String Nat :=
  if reply.length < 5 ∨ reply.head? ≠ some address ∨ (reply.drop 1).take 2 ≠ ['G', 'V'] then
    .error "Unexpected velocity reply"
  else
    match parseHexDigits ((reply.drop 3).take 2) with
    | none => .error "Malformed velocity value in reply"
    | some v => .ok v

/-- The `_parse_position_reply`: check `len >= 11`, address and `PO` tag, parse
`reply[3:11]` as hex, then reinterpret as signed 32-bit:
`if raw & 0x80000000: raw -= 0x100000000`. -/
def parse_position_reply (reply : List Char) (address : Char) : Except String Int :=
  if reply.length < 11 ∨ reply.head? ≠ some address ∨ (reply.drop 1).take 2 ≠ ['P', 'O'] then
    .error "Unexpected position reply"
  else
    match parseHexDigits ((reply.drop 3).take 8) with
    | none => .error "Malformed position value in reply"
    | some raw =>
      .ok (if raw &&& 0x80000000 ≠ 0 then (raw : Int) - 2 ^ 32 else (raw : Int))

/-! ## Outbound frames (`ElliptecDeviceBase` public operations)

Each operation builds one f-string frame `addr + mnemonic + payload`
(no terminator) and passes it to the serial layer. The session address is a
single normalized hex-digit character, modelled as one `Char`. -/

inductive HomeDirection where
  | CW
  | CCW
  deriving DecidableEq, Repr

/-- Value of `int(direction)` for the `HomeDirection` IntEnum (CW = 0, CCW = 1). -/
def HomeDirection.toNat : HomeDirection → Nat
  | .CW => 0
  | .CCW => 1

/-- Frame `f"{addr}gs"` (get_status, also each probe of `_find_addresses`). -/
def get_status_frame (addr : Char) : List Char := addr :: ['g', 's']

/-- Frame `f"{addr}gv"` (get_speed). -/
def get_velocity_frame (addr : Char) : List Char := addr :: ['g', 'v']

/-- Frame `f"{addr}gp"` (get_position_counts). -/
def get_position_frame (addr : Char) : List Char := addr :: ['g', 'p']

/-- Frame `f"{addr}st"` (stop). -/
def stop_frame (addr : Char) : List Char := addr :: ['s', 't']

/-- Frame `f"{addr}ho{int(direction)}"` (home): the direction digit is `str` of
0 or 1. -/
def home_frame (addr : Char) (direction : HomeDirection) : List Char :=
  addr :: 'h' :: 'o' :: [Char.ofNat ('0'.toNat + direction.toNat)]

/-- Frame `f"{addr}sv{vv}"` (set_speed), where `vv = _encode_u8_percent(percent)`;
propagates the range-check failure. -/
def set_velocity_frame (addr : Char) (percent : Int) : Except String (List Char) :=
  (encode_u8_percent percent).map fun vv => addr :: 's' :: 'v' :: vv

/-- Frame `f"{addr}ma{payload}"` (move_absolute), `payload = _encode_long32`. -/
def move_absolute_frame (addr : Char) (counts : Int) : List Char :=
  addr :: 'm' :: 'a' :: encode_long32 counts

/-- Frame `f"{addr}mr{payload}"` (move_relative). -/
def move_relative_frame (addr : Char) (counts : Int) : List Char :=
  addr :: 'm' :: 'r' :: encode_long32 counts

/-! ## Address binding (`ElliptecDeviceBase.__init__`, both variants)

When `address is None`, the constructor scans the bus and then applies the
binding policy to the list of found addresses. -/

inductive BindError where
  | noDevice
  | ambiguous
  deriving DecidableEq, Repr

/-- The `address is None` branch of `__init__`: empty scan result raises the
"No Elliptec device found" error, more than one raises the "Multiple Elliptec
devices found" error, otherwise the session binds `addrs[0]`. -/
def resolve_address (found : List Char) : Except BindError Char :=
  if found.isEmpty then .error .noDevice
  else if 1 < found.length then .error .ambiguous
  else
    match found.head? with
    | some a => .ok a
    | none => .error .noDevice

/-! ## Motion wait (`_wait_until_done`)

The wait loop consumes reply lines until one of them decides the motion (or
the deadline passes). We embed the async-line branch over the finite list of
lines delivered before the deadline: the end of the list is the deadline with
no conclusive line (the status-polling fallback that fills idle gaps is
outside this stream model). A raised `ElliptecError` is split into the
device-status case and the parse-failure case. -/

inductive WaitResult where
  | done
  | deviceError (status : Nat) (reply : List Char)
  | protocolError (msg : String)
  | timeout
  deriving DecidableEq, Repr

/-- Line handling of `_wait_until_done` (`elliptec.py` lines 372-386; the
async branch of `elliptec_trace.py` lines 584-600 is identical up to its
status parser, abstracted as `parse`): skip empty / other-address / short
lines; on a `GS` line parse the status — BUSY continues, non-OK raises, OK
returns; on a `PO` line return; skip any other tag. -/
def wait_until_done_with (parse : List Char → Char → Except String Nat)
    (address : Char) : List (List Char) → WaitResult
  | [] => .timeout
  | line :: rest =>
    if line = [] ∨ line.head? ≠ some address ∨ line.length < 3 then
      wait_until_done_with parse address rest
    else
      let cmd := (line.drop 1).take 2
      if cmd = ['G', 'S'] then
        match parse line address with
        | .error m => .protocolError m
        | .ok st =>
          if st = statusBusy then wait_until_done_with parse address rest
          else if st ≠ statusOK then .deviceError st line
          else .done
      else if cmd = ['P', 'O'] then .done
      else wait_until_done_with parse address rest

/-- Model of `_wait_until_done` in `elliptec.py` (entered by home / move_relative /
move_absolute / stop-when-busy). -/
def wait_until_done (address : Char) (lines : List (List Char)) : WaitResult :=
  wait_until_done_with parse_status_reply address lines

/-- Model of `_wait_until_done` in `elliptec_trace.py` (same structure, trace status
parser with the UNKNOWN fallback). -/
def trace_wait_until_done (address : Char) (lines : List (List Char)) : WaitResult :=
  wait_until_done_with trace_parse_status_reply address lines

/-! ## stop() (`elliptec.py` lines 330-342) -/

inductive StopOutcome where
  | timeout
  | protocolError (msg : String)
  | deviceError (status : Nat)
  | ok
  | waitForDone
  deriving DecidableEq, Repr

/-- Model of `stop()` up to the hand-off: `reply` is what `_send_and_read_one`
returned. `None` raises the timeout error; a `GS` reply is parsed and any
status other than OK and BUSY raises `ElliptecError`; BUSY enters
`_wait_until_done`; OK — and any non-`GS` reply — returns normally. -/
def stop_step (address : Char) (reply : Option (List Char)) : StopOutcome :=
  match reply with
  | none => .timeout
  | some r =>
    if (r.drop 1).take 2 = ['G', 'S'] then
      match parse_status_reply r address with
      | .error m => .protocolError m
      | .ok st =>
        if st ≠ statusOK ∧ st ≠ statusBusy then .deviceError st
        else if st = statusBusy then .waitForDone
        else .ok
    else .ok

/-! ## Correlated send-and-wait (`elliptec_trace.py._send_and_wait_one`)

`_send_raw` returns `time.monotonic()` right after `write` + `flush`; the
loop pops queued `(ts, txt, raw)` lines and skips those with
`ts + 1e-3 < tx_ts`. Timestamps are modelled as `ℚ`; the queue list holds
the lines popped before the deadline, so running out of lines is the
timeout (`None`). -/

def send_and_wait_one (txTs : ℚ) (predicate : List Char → Bool) :
    List (ℚ × List Char) → Option (List Char)
  | [] => none
  | (ts, txt) :: rest =>
    if ts + 1 / 1000 < txTs then send_and_wait_one txTs predicate rest
    else if predicate txt then some txt
    else send_and_wait_one txTs predicate rest

/-! ## Derived notions used by the statements -/

/-- The sixteen uppercase hex digit characters (output alphabet of `%X`). -/
def upperHexDigits : List Char :=
  (List.range 16).map hexDigitChar

/-- A reply line that one iteration of the `_wait_until_done` loop consumes
without terminating the wait: empty / other address / shorter than 3, a
BUSY status line, or a line with a tag other than `GS` and `PO`. -/
def consumed_by_wait (parse : List Char → Char → Except String Nat)
    (address : Char) (l : List Char) : Prop :=
  l = [] ∨ l.head? ≠ some address ∨ l.length < 3 ∨
    ((l.drop 1).take 2 = ['G', 'S'] ∧ parse l address = .ok statusBusy) ∨
    ((l.drop 1).take 2 ≠ ['G', 'S'] ∧ (l.drop 1).take 2 ≠ ['P', 'O'])

/-- Model of `move_relative(delta_counts)`: the frame it sends and the outcome of the
`_wait_until_done` call over the reply lines delivered before the deadline. -/
def move_relative_run (address : Char) (delta : Int) (lines : List (List Char)) :
    List Char × WaitResult :=
  (move_relative_frame address delta, wait_until_done address lines)

/-! ## Hex codec lemmas -/

theorem hexDigitVal_hexDigitChar : ∀ d : Nat, d < 16 → hexDigitVal (hexDigitChar d) = some d := by
  decide

theorem hexDigitChar_mem_upper : ∀ d : Nat, d < 16 → hexDigitChar d ∈ upperHexDigits := by
  decide

theorem toHexFixed_length : ∀ w n : Nat, (toHexFixed w n).length = w
  | 0, _ => rfl
  | w + 1, n => by
    simp [toHexFixed, toHexFixed_length w]

theorem toHexFixed_mem_upper : ∀ (w n : Nat) (c : Char), c ∈ toHexFixed w n → c ∈ upperHexDigits
  | 0, n, c => by
    simp [toHexFixed]
  | w + 1, n, c => by
    intro hc
    rw [toHexFixed] at hc
    rcases List.mem_append.mp hc with h | h
    · exact toHexFixed_mem_upper w _ c h
    · simp only [List.mem_singleton] at h
      subst h
      exact hexDigitChar_mem_upper _ (Nat.mod_lt _ (by norm_num))

theorem hexAccum_append (acc : Nat) (xs ys : List Char) :
    hexAccum acc (xs ++ ys) = (hexAccum acc xs).bind fun a => hexAccum a ys := by
  simp [hexAccum, List.foldlM_append]

theorem hexAccum_singleton (acc : Nat) (c : Char) :
    hexAccum acc [c] = (hexDigitVal c).map fun v => acc * 16 + v := by
  cases h : hexDigitVal c <;> simp [hexAccum, List.foldlM, h]

theorem hexAccum_toHexFixed : ∀ (w n acc : Nat), n < 16 ^ w →
    hexAccum acc (toHexFixed w n) = some (acc * 16 ^ w + n)
  | 0, n, acc, hn => by
    have hn0 : n = 0 := by simpa using hn
    subst hn0
    simp [toHexFixed, hexAccum, List.foldlM]
  | w + 1, n, acc, hn => by
    have h16 : (0 : Nat) < 16 := by norm_num
    have hdiv : n / 16 < 16 ^ w := by
      rw [Nat.div_lt_iff_lt_mul h16]
      calc n < 16 ^ (w + 1) := hn
        _ = 16 ^ w * 16 := by rw [pow_succ]
    rw [toHexFixed, hexAccum_append, hexAccum_toHexFixed w (n / 16) acc hdiv]
    simp [hexAccum_singleton, hexDigitVal_hexDigitChar (n % 16) (Nat.mod_lt _ h16)]
    rw [pow_succ, ← Nat.mul_assoc]
    generalize acc * 16 ^ w = A
    omega

theorem parseHexDigits_toHexFixed (w n : Nat) (hw : 0 < w) (hn : n < 16 ^ w) :
    parseHexDigits (toHexFixed w n) = some n := by
  have hacc := hexAccum_toHexFixed w n 0 hn
  have hlen := toHexFixed_length w n
  cases hcons : toHexFixed w n with
  | nil =>
    rw [hcons] at hlen
    simp at hlen
    omega
  | cons c cs =>
    rw [hcons] at hacc
    simpa [parseHexDigits] using hacc

theorem parseHexDigits_pair (h1 h2 : Char) (c1 c2 : Nat)
    (e1 : hexDigitVal h1 = some c1) (e2 : hexDigitVal h2 = some c2) :
    parseHexDigits [h1, h2] = some (c1 * 16 + c2) := by
  simp [parseHexDigits, hexAccum, List.foldlM, e1, e2]

theorem parse_status_reply_with_wellformed (members : List Nat) (fallback : Nat)
    (a h1 h2 : Char) (c1 c2 : Nat)
    (e1 : hexDigitVal h1 = some c1) (e2 : hexDigitVal h2 = some c2) :
    parse_status_reply_with members fallback [a, 'G', 'S', h1, h2] a =
      .ok (if c1 * 16 + c2 ∈ members then c1 * 16 + c2 else fallback) := by
  simp [parse_status_reply_with, parseHexDigits_pair h1 h2 c1 c2 e1 e2]

theorem encode_u8_percent_ok_length (p : Int) (vv : List Char)
    (h : encode_u8_percent p = .ok vv) : vv.length = 2 := by
  rw [encode_u8_percent] at h
  split at h
  · simp only [Except.ok.injEq] at h
    subst h
    exact toHexFixed_length 2 _
  · simp at h

/-! ## Claim theorems -/

/-- C3: for every status reply line `addr + "GS" + two hex digits` whose
numeric code lies outside the defined StatusCode enumeration (14 or above),
`_parse_status_reply` never raises a decode error: the helpers/elliptec
variant returns the `COMMAND_ERROR_OR_NOT_SUPPORTED` fallback and the trace
variant returns the `UNKNOWN` fallback. -/
theorem spec_C3_unknown_status_code_fallback :
    ∀ (a h1 h2 : Char) (c1 c2 : Nat),
      hexDigitVal h1 = some c1 → hexDigitVal h2 = some c2 → 14 ≤ c1 * 16 + c2 →
      parse_status_reply [a, 'G', 'S', h1, h2] a = .ok statusCommandErrorOrNotSupported ∧
      trace_parse_status_reply [a, 'G', 'S', h1, h2] a = .ok traceStatusUnknown := by
  intro a h1 h2 c1 c2 e1 e2 hge
  constructor
  · rw [parse_status_reply, parse_status_reply_with_wellformed _ _ a h1 h2 c1 c2 e1 e2]
    have hnm : c1 * 16 + c2 ∉ statusMembers := by
      simp only [statusMembers, List.mem_range]
      omega
    rw [if_neg hnm]
  · rw [trace_parse_status_reply, parse_status_reply_with_wellformed _ _ a h1 h2 c1 c2 e1 e2]
    by_cases hmem : c1 * 16 + c2 ∈ traceStatusMembers
    · have h255 : c1 * 16 + c2 = 255 := by
        simp only [traceStatusMembers, List.mem_append, List.mem_range,
          List.mem_singleton] at hmem
        omega
      rw [if_pos hmem, h255, traceStatusUnknown]
    · rw [if_neg hmem]

/-- C3 witness: the undefined code 0x0E (14) maps to the fallback in both
status parsers, with no decode error. -/
theorem spec_C3_witness :
    parse_status_reply ['0', 'G', 'S', '0', 'E'] '0' = .ok statusCommandErrorOrNotSupported ∧
    trace_parse_status_reply ['0', 'G', 'S', '0', 'E'] '0' = .ok traceStatusUnknown :=
  spec_C3_unknown_status_code_fallback '0' '0' 'E' 0 14 (by decide) (by decide) (by norm_num)

/-- C10: for every reply line `addr + "GV" + two hex digits`,
`_parse_velocity_reply` returns the full decoded byte value with no percent
range check; in particular `"0GVFF"` is accepted and yields 255. -/
theorem spec_C10_velocity_no_range_check :
    (∀ (a h1 h2 : Char) (c1 c2 : Nat),
      hexDigitVal h1 = some c1 → hexDigitVal h2 = some c2 →
      parse_velocity_reply [a, 'G', 'V', h1, h2] a = .ok (c1 * 16 + c2)) ∧
    parse_velocity_reply ['0', 'G', 'V', 'F', 'F'] '0' = .ok 255 := by
  constructor
  · intro a h1 h2 c1 c2 e1 e2
    simp [parse_velocity_reply, parseHexDigits_pair h1 h2 c1 c2 e1 e2]
  · decide

/-- C10 witness: `"AGVFF"` decodes to 255 for address `'A'`. -/
theorem spec_C10_witness :
    parse_velocity_reply ['A', 'G', 'V', 'F', 'F'] 'A' = .ok 255 :=
  spec_C10_velocity_no_range_check.1 'A' 'F' 'F' 15 15 (by decide) (by decide)

/-- C6: `_encode_u8_percent` rejects every integer percent outside [0, 100]
(in particular -1 and 101) with the range ValueError, and inside [0, 100]
returns exactly two uppercase zero-padded hex digits (0 → "00",
100 → "64"). -/
theorem spec_C6_percent_encoder :
    (∀ p : Int, p < 0 ∨ 100 < p → encode_u8_percent p = .error "percent must be in [0, 100]") ∧
    (∀ p : Int, 0 ≤ p → p ≤ 100 →
      encode_u8_percent p = .ok (toHexFixed 2 p.toNat) ∧
      (toHexFixed 2 p.toNat).length = 2 ∧
      ∀ c ∈ toHexFixed 2 p.toNat, c ∈ upperHexDigits) ∧
    encode_u8_percent (-1) = .error "percent must be in [0, 100]" ∧
    encode_u8_percent 101 = .error "percent must be in [0, 100]" ∧
    encode_u8_percent 0 = .ok ['0', '0'] ∧
    encode_u8_percent 100 = .ok ['6', '4'] := by
  refine ⟨?_, ?_, by decide, by decide, by decide, by decide⟩
  · intro p hp
    rw [encode_u8_percent, if_neg (by omega)]
  · intro p h0 h100
    exact ⟨by rw [encode_u8_percent, if_pos ⟨h0, h100⟩], toHexFixed_length 2 _,
      fun c hc => toHexFixed_mem_upper 2 _ c hc⟩

/-- C6 witness: the encoder applied at -1 (rejected) and at 50 (two
uppercase hex digits). -/
theorem spec_C6_witness :
    encode_u8_percent (-1) = .error "percent must be in [0, 100]" ∧
    (encode_u8_percent 50 = .ok (toHexFixed 2 (50 : Int).toNat) ∧
      (toHexFixed 2 (50 : Int).toNat).length = 2 ∧
      ∀ c ∈ toHexFixed 2 (50 : Int).toNat, c ∈ upperHexDigits) :=
  ⟨spec_C6_percent_encoder.1 (-1) (by norm_num),
    spec_C6_percent_encoder.2.1 50 (by norm_num) (by norm_num)⟩

/-- C7: when a session is opened without an explicit address, the binding
policy over the scan result is: empty → no-device error; more than one →
ambiguous-bus error; exactly one → bind to it. -/
theorem spec_C7_binding_policy :
    resolve_address [] = .error .noDevice ∧
    (∀ (a b : Char) (rest : List Char), resolve_address (a :: b :: rest) = .error .ambiguous) ∧
    (∀ a : Char, resolve_address [a] = .ok a) := by
  refine ⟨rfl, ?_, fun a => rfl⟩
  intro a b rest
  have h2 : 1 < (a :: b :: rest).length := by
    simp [List.length_cons]
  simp [resolve_address, h2]

/-- C8: every outbound frame has its fixed mnemonic-specific total length:
queries and stop are 3 bytes, home is 4, set-velocity is 5,
move-relative/absolute are 11. -/
theorem spec_C8_frame_lengths :
    ∀ addr : Char,
      (get_status_frame addr).length = 3 ∧
      (get_velocity_frame addr).length = 3 ∧
      (get_position_frame addr).length = 3 ∧
      (stop_frame addr).length = 3 ∧
      (∀ d : HomeDirection, (home_frame addr d).length = 4) ∧
      (∀ (p : Int) (f : List Char), set_velocity_frame addr p = .ok f → f.length = 5) ∧
      (∀ v : Int, (move_absolute_frame addr v).length = 11 ∧
        (move_relative_frame addr v).length = 11) := by
  intro addr
  refine ⟨rfl, rfl, rfl, rfl, fun d => rfl, ?_, ?_⟩
  · intro p f hf
    rw [set_velocity_frame] at hf
    cases he : encode_u8_percent p with
    | error m =>
      rw [he] at hf
      simp [Except.map] at hf
    | ok vv =>
      rw [he] at hf
      simp only [Except.map, Except.ok.injEq] at hf
      subst hf
      simp [encode_u8_percent_ok_length p vv he]
  · intro v
    constructor <;>
      simp [move_absolute_frame, move_relative_frame, encode_long32, toHexFixed_length]

/-- C8 witness: concrete frames at address 'A' have the required lengths;
the set-velocity hypothesis is discharged at percent 50. -/
theorem spec_C8_witness :
    set_velocity_frame 'A' 50 = .ok ['A', 's', 'v', '3', '2'] ∧
    (['A', 's', 'v', '3', '2'] : List Char).length = 5 ∧
    (home_frame 'A' .CW).length = 4 ∧
    (move_relative_frame 'A' (-1)).length = 11 :=
  ⟨by decide,
    (spec_C8_frame_lengths 'A').2.2.2.2.2.1 50 ['A', 's', 'v', '3', '2'] (by decide),
    (spec_C8_frame_lengths 'A').2.2.2.2.1 .CW,
    ((spec_C8_frame_lengths 'A').2.2.2.2.2.2 (-1)).2⟩

theorem parse_position_reply_toHexFixed (a : Char) (n : Nat) (hn : n < 4294967296) :
    parse_position_reply (a :: 'P' :: 'O' :: toHexFixed 8 n) a =
      .ok (if n &&& 0x80000000 ≠ 0 then (n : Int) - 2 ^ 32 else (n : Int)) := by
  have hlen : (toHexFixed 8 n).length = 8 := toHexFixed_length 8 n
  have hparse : parseHexDigits (toHexFixed 8 n) = some n :=
    parseHexDigits_toHexFixed 8 n (by norm_num) (by norm_num; omega)
  have htake : (toHexFixed 8 n).take 8 = toHexFixed 8 n := by
    conv_lhs => rw [← hlen]
    exact List.take_length _
  simp [parse_position_reply, hlen, htake, hparse]

/-- C5: for every signed 32-bit integer v (including INT32_MIN and
INT32_MAX), decoding a position reply built from the two's-complement
encoding of v returns v exactly:
`_parse_position_reply(addr + "PO" + _encode_long32(v), addr) = v`. -/
theorem spec_C5_position_roundtrip :
    ∀ (a : Char) (v : Int), -2147483648 ≤ v → v ≤ 2147483647 →
      parse_position_reply (a :: 'P' :: 'O' :: encode_long32 v) a = .ok v := by
  intro a v hlo hhi
  have e32 : ((2 : Int) ^ 32) = 4294967296 := by norm_num
  rcases le_or_lt 0 v with h0 | h0
  · -- nonnegative: residue is v itself, high bit clear
    have hemod : v.emod (2 ^ 32) = v := Int.emod_eq_of_lt h0 (by omega)
    have hn : (v.emod (2 ^ 32)).toNat = v.toNat := by rw [hemod]
    have hnlt : v.toNat < 4294967296 := by omega
    have hnlt31 : v.toNat < 2 ^ 31 := by norm_num; omega
    rw [encode_long32, hn, parse_position_reply_toHexFixed a v.toNat hnlt]
    have hbit : v.toNat &&& 0x80000000 = 0 := by
      rw [show (0x80000000 : Nat) = 2 ^ 31 by norm_num, Nat.and_two_pow,
        Nat.testBit_lt_two_pow hnlt31]
      rfl
    rw [if_neg (by simp [hbit]), Int.toNat_of_nonneg h0]
  · -- negative: residue is v + 2^32, high bit set
    have hemod : v.emod (2 ^ 32) = v + 2 ^ 32 := by
      have hshift : (v + 2 ^ 32 * 1).emod (2 ^ 32) = v.emod (2 ^ 32) :=
        Int.add_mul_emod_self_left v (2 ^ 32) 1
      have heq : (v + 2 ^ 32).emod (2 ^ 32) = v + 2 ^ 32 :=
        Int.emod_eq_of_lt (by omega) (by omega)
      rw [mul_one] at hshift
      rw [← hshift, heq]
    set n : Nat := (v.emod (2 ^ 32)).toNat with hndef
    have hn : (n : Int) = v + 2 ^ 32 := by
      rw [hndef, hemod, Int.toNat_of_nonneg (by omega)]
    have hnlo : 2147483648 ≤ n := by omega
    have hnhi : n < 4294967296 := by omega
    rw [encode_long32, ← hndef, parse_position_reply_toHexFixed a n hnhi]
    have hbit : n.testBit 31 = true := by
      rw [Nat.testBit_to_div_mod]
      simp only [decide_eq_true_eq]
      rw [show (2 : Nat) ^ 31 = 2147483648 by norm_num]
      omega
    have hand : n &&& 0x80000000 ≠ 0 := by
      rw [show (0x80000000 : Nat) = 2 ^ 31 by norm_num, Nat.and_two_pow, hbit]
      norm_num
    rw [if_pos hand, hn]
    congr 1
    ring

/-- C5 witness: the round-trip at INT32_MIN and INT32_MAX. -/
theorem spec_C5_witness :
    parse_position_reply ('0' :: 'P' :: 'O' :: encode_long32 (-2147483648)) '0' =
      .ok (-2147483648) ∧
    parse_position_reply ('0' :: 'P' :: 'O' :: encode_long32 2147483647) '0' =
      .ok 2147483647 :=
  ⟨spec_C5_position_roundtrip '0' (-2147483648) (by norm_num) (by norm_num),
    spec_C5_position_roundtrip '0' 2147483647 (by norm_num) (by norm_num)⟩

theorem wait_skip (parse : List Char → Char → Except String Nat) (a : Char)
    (l : List Char) (rest : List (List Char)) (h : consumed_by_wait parse a l) :
    wait_until_done_with parse a (l :: rest) = wait_until_done_with parse a rest := by
  rcases h with h | h | h | ⟨htag, hbusy⟩ | ⟨hgs, hpo⟩
  · simp [wait_until_done_with, h]
  · simp [wait_until_done_with, h]
  · simp [wait_until_done_with, h]
  · rw [List.drop_one] at htag
    by_cases hguard : l = [] ∨ l.head? ≠ some a ∨ l.length < 3
    · simp [wait_until_done_with, hguard]
    · simp [wait_until_done_with, hguard, htag, hbusy]
  · rw [List.drop_one] at hgs hpo
    by_cases hguard : l = [] ∨ l.head? ≠ some a ∨ l.length < 3
    · simp [wait_until_done_with, hguard]
    · simp [wait_until_done_with, hguard, hgs, hpo]

theorem wait_consumes_skipped (parse : List Char → Char → Except String Nat) (a : Char)
    (suffix : List (List Char)) :
    ∀ pre : List (List Char), (∀ l ∈ pre, consumed_by_wait parse a l) →
      wait_until_done_with parse a (pre ++ suffix) = wait_until_done_with parse a suffix
  | [], _ => by rw [List.nil_append]
  | head :: tail, h => by
    rw [List.cons_append, wait_skip parse a head _ (h head (by simp))]
    exact wait_consumes_skipped parse a suffix tail fun l hl => h l (by simp [hl])

theorem wait_guard_passes (a : Char) (line : List Char)
    (hhead : line.head? = some a) (hlen : 3 ≤ line.length) :
    ¬(line = [] ∨ line.head? ≠ some a ∨ line.length < 3) := by
  push_neg
  refine ⟨?_, by simp [hhead], by omega⟩
  intro h
  rw [h] at hhead
  simp at hhead

theorem wait_position_done (parse : List Char → Char → Except String Nat) (a : Char)
    (line : List Char) (rest : List (List Char))
    (hhead : line.head? = some a) (hlen : 3 ≤ line.length)
    (htag : (line.drop 1).take 2 = ['P', 'O']) :
    wait_until_done_with parse a (line :: rest) = .done := by
  rw [List.drop_one] at htag
  rw [wait_until_done_with, if_neg (wait_guard_passes a line hhead hlen)]
  simp [htag]

theorem wait_status_error (parse : List Char → Char → Except String Nat) (a : Char)
    (line : List Char) (rest : List (List Char)) (st : Nat)
    (hhead : line.head? = some a) (hlen : 3 ≤ line.length)
    (htag : (line.drop 1).take 2 = ['G', 'S'])
    (hparse : parse line a = .ok st) (hnb : st ≠ statusBusy) (hno : st ≠ statusOK) :
    wait_until_done_with parse a (line :: rest) = .deviceError st line := by
  rw [List.drop_one] at htag
  rw [wait_until_done_with, if_neg (wait_guard_passes a line hhead hlen)]
  simp [htag, hparse, hnb, hno]

/-- C1 (amended): in every motion wait, a mechanical-timeout status reply
(GS02) for the bound address is NOT treated like busy: both `_wait_until_done`
variants immediately raise it as a device error (`Motion ended with error`),
exactly as for any status other than OK and BUSY. -/
theorem spec_C1_amended_mechanical_timeout_is_error :
    (∀ (a : Char) (line : List Char) (rest : List (List Char)),
      line.head? = some a → 3 ≤ line.length → (line.drop 1).take 2 = ['G', 'S'] →
      parse_status_reply line a = .ok statusMechanicalTimeout →
      wait_until_done a (line :: rest) = .deviceError statusMechanicalTimeout line) ∧
    (∀ (a : Char) (line : List Char) (rest : List (List Char)),
      line.head? = some a → 3 ≤ line.length → (line.drop 1).take 2 = ['G', 'S'] →
      trace_parse_status_reply line a = .ok statusMechanicalTimeout →
      trace_wait_until_done a (line :: rest) = .deviceError statusMechanicalTimeout line) :=
  ⟨fun a line rest hhead hlen htag hparse =>
      wait_status_error parse_status_reply a line rest statusMechanicalTimeout
        hhead hlen htag hparse (by decide) (by decide),
    fun a line rest hhead hlen htag hparse =>
      wait_status_error trace_parse_status_reply a line rest statusMechanicalTimeout
        hhead hlen htag hparse (by decide) (by decide)⟩

/-- C1 counterexample: with the session bound to "0", the reply stream
["0GS02", "0PO00000000"] makes both `_wait_until_done` variants raise a
MECHANICAL_TIMEOUT device error at the first line instead of remaining busy
and completing on the position reply, as the claim would require. -/
theorem spec_C1_counterexample :
    wait_until_done '0'
        [['0', 'G', 'S', '0', '2'],
         ['0', 'P', 'O', '0', '0', '0', '0', '0', '0', '0', '0']] =
      .deviceError statusMechanicalTimeout ['0', 'G', 'S', '0', '2'] ∧
    trace_wait_until_done '0'
        [['0', 'G', 'S', '0', '2'],
         ['0', 'P', 'O', '0', '0', '0', '0', '0', '0', '0', '0']] =
      .deviceError statusMechanicalTimeout ['0', 'G', 'S', '0', '2'] ∧
    wait_until_done '0'
        [['0', 'G', 'S', '0', '2'],
         ['0', 'P', 'O', '0', '0', '0', '0', '0', '0', '0', '0']] ≠ .done := by
  refine ⟨by decide, by decide, by decide⟩

/-- C1 witness: the amended theorem applied at address '0' and the concrete
line "0GS02". -/
theorem spec_C1_witness :
    wait_until_done '0' [['0', 'G', 'S', '0', '2']] =
      .deviceError statusMechanicalTimeout ['0', 'G', 'S', '0', '2'] :=
  spec_C1_amended_mechanical_timeout_is_error.1 '0' ['0', 'G', 'S', '0', '2'] []
    (by decide) (by decide) (by decide) (by decide)

/-- C2: in every motion wait, after any prefix of lines the loop consumes
without terminating, a Position-tagged reply for the bound address resolves
the wait to DONE unconditionally; in particular, the reply stream
["0GS09", "0GS09", "0PO00000000"] bound to address "0" completes a
move_relative call without error. -/
theorem spec_C2_position_completes :
    (∀ (a : Char) (pre : List (List Char)),
      (∀ l ∈ pre, consumed_by_wait parse_status_reply a l) →
      ∀ (line : List Char) (rest : List (List Char)),
        line.head? = some a → 3 ≤ line.length → (line.drop 1).take 2 = ['P', 'O'] →
        wait_until_done a (pre ++ line :: rest) = .done) ∧
    (move_relative_run '0' 0
        [['0', 'G', 'S', '0', '9'], ['0', 'G', 'S', '0', '9'],
         ['0', 'P', 'O', '0', '0', '0', '0', '0', '0', '0', '0']]).2 = .done ∧
    trace_wait_until_done '0'
        [['0', 'G', 'S', '0', '9'], ['0', 'G', 'S', '0', '9'],
         ['0', 'P', 'O', '0', '0', '0', '0', '0', '0', '0', '0']] = .done := by
  refine ⟨?_, by decide, by decide⟩
  intro a pre hpre line rest hhead hlen htag
  rw [wait_until_done, wait_consumes_skipped parse_status_reply a _ pre hpre]
  exact wait_position_done parse_status_reply a line rest hhead hlen htag

/-- C2 witness: the general part applied after a one-line busy prefix. -/
theorem spec_C2_witness :
    wait_until_done '0'
        ([['0', 'G', 'S', '0', '9']] ++
          [['0', 'P', 'O', '0', '0', '0', '0', '0', '0', '0', '0']]) = .done :=
  spec_C2_position_completes.1 '0' [['0', 'G', 'S', '0', '9']]
    (by
      intro l hl
      simp only [List.mem_singleton] at hl
      subst hl
      unfold consumed_by_wait
      decide)
    ['0', 'P', 'O', '0', '0', '0', '0', '0', '0', '0', '0'] []
    (by decide) (by decide) (by decide)

/-- C4 (amended): `stop()` treats a command-error-class status reply as
fatal, not as a normal outcome: any `GS` reply whose status is
COMMAND_ERROR_OR_NOT_SUPPORTED makes `stop()` raise an `ElliptecError`;
only OK and BUSY are non-fatal. -/
theorem spec_C4_amended_stop_raises_on_command_error :
    ∀ (a : Char) (r : List Char),
      (r.drop 1).take 2 = ['G', 'S'] →
      parse_status_reply r a = .ok statusCommandErrorOrNotSupported →
      stop_step a (some r) = .deviceError statusCommandErrorOrNotSupported := by
  intro a r htag hparse
  rw [List.drop_one] at htag
  simp [stop_step, htag, hparse, statusCommandErrorOrNotSupported, statusOK, statusBusy]

/-- C4 counterexample: the stop reply "0GS03" (command error / not
supported) makes `stop()` raise a device error instead of returning it as a
normal non-fatal outcome. -/
theorem spec_C4_counterexample :
    stop_step '0' (some ['0', 'G', 'S', '0', '3']) =
      .deviceError statusCommandErrorOrNotSupported ∧
    stop_step '0' (some ['0', 'G', 'S', '0', '3']) ≠ .ok := by
  refine ⟨by decide, by decide⟩

/-- C4 witness: the amended theorem applied at address '0' and reply
"0GS03". -/
theorem spec_C4_witness :
    stop_step '0' (some ['0', 'G', 'S', '0', '3']) =
      .deviceError statusCommandErrorOrNotSupported :=
  spec_C4_amended_stop_raises_on_command_error '0' ['0', 'G', 'S', '0', '3']
    (by decide) (by decide)

/-- C9 (amended): `_send_and_wait_one` discards a queued line only when its
receive timestamp precedes the post-write send timestamp by more than the
1 ms tolerance (`ts + 1e-3 < tx_ts`); the returned value (when not a
timeout) is the first remaining line satisfying the predicate. -/
theorem spec_C9_amended_tolerant_correlation :
    ∀ (txTs : ℚ) (predicate : List Char → Bool) (queue : List (ℚ × List Char)),
      send_and_wait_one txTs predicate queue =
        ((queue.filter fun item => decide (¬(item.1 + 1 / 1000 < txTs))).find?
            fun item => predicate item.2).map Prod.snd := by
  intro txTs predicate queue
  induction queue with
  | nil => rfl
  | cons item rest ih =>
    obtain ⟨ts, txt⟩ := item
    rw [send_and_wait_one, List.filter_cons]
    by_cases hts : ts + 1 / 1000 < txTs
    · rw [if_pos hts, ih]
      have hcond : decide (¬((ts, txt).1 + 1 / 1000 < txTs)) = false := by
        simpa using hts
      rw [hcond]
      rfl
    · rw [if_neg hts]
      have hcond : decide (¬((ts, txt).1 + 1 / 1000 < txTs)) = true := by
        simpa using hts
      rw [hcond]
      simp only [if_true, cond_true, List.find?_cons]
      by_cases hp : predicate txt
      · simp [hp]
      · simp [hp, ih]

/-- C9 counterexample: a queued line whose receive timestamp (1999/2000)
strictly precedes the send timestamp (1) but lies within the 1 ms tolerance
is matched and returned, not discarded as the claim requires. -/
theorem spec_C9_counterexample :
    (1999 : ℚ) / 2000 < 1 ∧
    send_and_wait_one 1 (fun _ => true)
        [((1999 : ℚ) / 2000, ['0', 'G', 'S', '0', '0'])] =
      some ['0', 'G', 'S', '0', '0'] := by
  constructor
  · norm_num
  · rw [send_and_wait_one, if_neg (by norm_num)]
    rfl

end Elliptec
